import Mathlib

/-!
# GoPortForward: connection counting, admission and byte relay

A shallow embedding of `main.go`: the per-rule connection counter
(`MultiConn.Count`), the admission test and counter closure of `handleRequest`,
the relay loop `copyBuffer`, the pump `copyIO` and the start-up loop of `main`.

Conventions of the embedding.

* Go `int` is 64 bits wide on 64-bit targets. Arithmetic on `int` values, the
  product `r.Simultaneous * 2` and the update `MultiConn.Count[index] += number`, is
  evaluated with two's-complement wrap-around (`wrapInt`).
* `written` is the number of bytes relayed by one pump, counted from 0 inside
  `copyBuffer`; it stays far below `2^63` and is a plain integer.
* Network peers are scripts: the results that `SetDeadline`, `Read`, `Write` and
  `net.Dial` produce are inputs of the embedded functions.
-/

namespace GoPortForward

/-! ## Machine integers -/

/-- Width of Go's `int` on a 64-bit target. -/
def intBits : Nat := 64

/-- Smallest value of Go's `int`. -/
def minInt : Int := -(2 ^ (intBits - 1))

/-- Largest value of Go's `int`. -/
def maxInt : Int := 2 ^ (intBits - 1) - 1

/-- Two's-complement wrap-around of a mathematical integer into Go's `int`. -/
def wrapInt (x : Int) : Int :=
  (x + 2 ^ (intBits - 1)) % 2 ^ intBits - 2 ^ (intBits - 1)

/-! ## Data model -/

/-- The main rule struct (`type Rule struct`). `Listen` is a `uint16`. -/
structure Rule where
  Name : String
  Listen : Nat
  Forward : String
  Simultaneous : Int
  deriving DecidableEq, Repr

/-- The config file struct (`type Config struct`). -/
structure Config where
  Timeout : Int
  Rules : List Rule
  deriving DecidableEq, Repr

/-- Go error values. `io.EOF` and `io.ErrShortWrite` are distinguished sentinels
(compared by identity in the source); every other error is known by its message. -/
inductive GoErr where
  | EOF
  | ErrShortWrite
  | other (msg : String)
  deriving DecidableEq, Repr

/-- The method `err.Error()`. -/
def GoErr.Error : GoErr → String
  | .EOF => "EOF"
  | .ErrShortWrite => "short write"
  | .other msg => msg

/-- The function `errors.New`: a fresh error, distinct from every sentinel. -/
def errorsNew (msg : String) : GoErr := .other msg

/-! ## `handleRequest`: the two closures -/

/-- The closure `hasReachedLimit` of `handleRequest`:
`(r.Simultaneous != 0) && (number >= (r.Simultaneous * 2))`. -/
def hasReachedLimit (r : Rule) (number : Int) : Bool :=
  (r.Simultaneous != 0) && decide (number ≥ wrapInt (r.Simultaneous * 2))

/-- The closure `changeConnCount` of `handleRequest`, on the slice `MultiConn.Count`.
Returns the slice after the call and the returned value; `none` is the run-time panic
of an out-of-range index. The mutex makes the whole body one atomic step. -/
def changeConnCount (Count : List Int) (index : Nat) (number : Int) :
    Option (List Int × Int) :=
  if h : index < Count.length then
    let Count1 :=
      if number != 0 then Count.set index (wrapInt (Count[index] + number)) else Count
    some (Count1, Count1.getD index 0)
  else
    none

/-- Observable actions of a handler or of a pump, in program order. -/
inductive Effect where
  | logVerbose (level : Nat)
  | connClose
  | netDial (addr : String)
  | goPump (clientToServer : Bool)
  | closeCb
  | destClose
  | srcClose
  deriving DecidableEq, Repr

/-- The function `handleRequest` run on its own from the counter `Count`. `dial` is
the error returned by `net.Dial` (`none` for `nil`); it is consulted only when the
dial is reached. The result is the counter after the handler returned and what it
did; `.goPump true` is `go copyIO(conn, proxy, ...)` and `.goPump false` is
`go copyIO(proxy, conn, ...)`. -/
def handleRequest (Count : List Int) (index : Nat) (r : Rule) (dial : Option GoErr) :
    Option (List Int × List Effect) :=
  match changeConnCount Count index 0 with
  | none => none
  | some (Count1, connCount) =>
    if hasReachedLimit r connCount then
      some (Count1, [.logVerbose 2, .connClose])
    else
      match dial with
      | some _ => some (Count1, [.netDial r.Forward, .logVerbose 1, .connClose])
      | none =>
        match changeConnCount Count1 index 2 with
        | none => none
        | some (Count2, _) =>
          some (Count2, [.netDial r.Forward, .logVerbose 4, .goPump true, .goPump false])

/-! ## `copyBuffer` -/

/-- A byte of the relayed stream. -/
abbrev Byte := Nat

/-- Size of the buffer `buf := make([]byte, 32768)`. -/
def bufSize : Nat := 32768

/-- What the two connections answer during one pass of the `for` loop of
`copyBuffer`: the result of `src.SetDeadline`, of `src.Read` (`chunk` are the bytes put
in `buf`, so `nr = chunk.length`, together with `er`), of `dst.SetDeadline` and of
`dst.Write` (`nw`, `ew`). The last three are consulted only when they are reached. -/
structure Cycle where
  srcDeadline : Option GoErr
  chunk : List Byte
  er : Option GoErr
  dstDeadline : Option GoErr
  nw : Int
  ew : Option GoErr
  deriving DecidableEq, Repr

/-- The calls `copyBuffer` makes on its two connections. `dstWrite p nw` is the call
`dst.Write(p)` answering `nw`. -/
inductive IOOp where
  | srcSetDeadline
  | srcRead (nr : Nat)
  | dstSetDeadline
  | dstWrite (p : List Byte) (nw : Int)
  deriving DecidableEq, Repr

/-- How a call ends: it returns, it panics, or it waits for ever on a peer that
answers nothing more. -/
inductive Run (α : Type) where
  | returned (a : α)
  | panicked
  | blocked
  deriving DecidableEq, Repr

/-- Outcome of one pass of the loop body. -/
inductive Iter where
  | brk (written : Int) (err : Option GoErr) (ops : List IOOp)
  | cont (written : Int) (ops : List IOOp)
  | panic
  deriving DecidableEq, Repr

/-- The tail of the loop body: `if er != nil { if er != io.EOF { err = er }; break }`.
At this point `err` is `nil`. -/
def afterRead (c : Cycle) (written : Int) (ops : List IOOp) : Iter :=
  match c.er with
  | some e => .brk written (if e ≠ .EOF then some e else none) ops
  | none => .cont written ops

/-- One pass of the `for` loop of `copyBuffer`, entered with `written`. Slicing
`buf[0:nr]` panics when `nr` exceeds the buffer. -/
def copyCycle (c : Cycle) (written : Int) : Iter :=
  match c.srcDeadline with
  | some e =>
    .brk written (some (errorsNew ("cannot set timeout for src:" ++ e.Error)))
      [.srcSetDeadline]
  | none =>
    let nr := c.chunk.length
    if nr > 0 then
      match c.dstDeadline with
      | some e =>
        .brk written (some (errorsNew ("cannot set timeout for dest: " ++ e.Error)))
          [.srcSetDeadline, .srcRead nr, .dstSetDeadline]
      | none =>
        if nr > bufSize then .panic
        else
          let ops := [.srcSetDeadline, .srcRead nr, .dstSetDeadline, .dstWrite c.chunk c.nw]
          let written1 := if c.nw > 0 then written + c.nw else written
          match c.ew with
          | some e => .brk written1 (some e) ops
          | none =>
            if (nr : Int) ≠ c.nw then .brk written1 (some .ErrShortWrite) ops
            else afterRead c written1 ops
    else afterRead c written [.srcSetDeadline, .srcRead nr]

/-- What `copyBuffer` returns, with the calls it made. -/
structure CopyResult where
  written : Int
  err : Option GoErr
  ops : List IOOp
  deriving DecidableEq, Repr

/-- The `for` loop of `copyBuffer` against a script of answers. When the script is
used up the next `Read` never returns. -/
def copyLoop : List Cycle → Int → List IOOp → Run CopyResult
  | [], _, _ => .blocked
  | c :: rest, written, ops =>
    match copyCycle c written with
    | .brk written1 err ops1 => .returned ⟨written1, err, ops ++ ops1⟩
    | .cont written1 ops1 => copyLoop rest written1 (ops ++ ops1)
    | .panic => .panicked

/-- The function `copyBuffer(dst, src)`. -/
def copyBuffer (script : List Cycle) : Run CopyResult :=
  copyLoop script 0 []

/-- A pass in which both deadlines are set, the source hands over `chunk` with the
error `er`, and the destination accepts the write in full. -/
def fullCycle (chunk : List Byte) (er : Option GoErr) : Cycle :=
  ⟨none, chunk, er, none, chunk.length, none⟩

/-- The bytes that reached the destination: of each `dst.Write(p)` answering `nw`, the
first `nw` bytes of `p`. -/
def delivered : List IOOp → List Byte
  | [] => []
  | .dstWrite p nw :: ops => p.take nw.toNat ++ delivered ops
  | _ :: ops => delivered ops

/-! ## `copyIO` -/

/-- The function `strings.Contains`. -/
def stringsContains (s substr : String) : Bool :=
  s.data.tails.any (fun t => substr.data.isPrefixOf t)

/-- The function `strings.HasPrefix`. -/
def stringsHasPrefix (s pre : String) : Bool :=
  pre.data.isPrefixOf s.data

/-- The function `strings.HasSuffix`. -/
def stringsHasSuffix (s suf : String) : Bool :=
  suf.data.isSuffixOf s.data

/-- The verbosity level at which `copyIO` reports a non-nil error. -/
def errLogLevel (err : GoErr) : Nat :=
  if stringsContains err.Error "i/o timeout" then 3
  else if stringsHasPrefix err.Error "cannot set timeout for" then
    if stringsHasSuffix err.Error "use of closed network connection" then 4 else 1
  else 4

/-- The first statement of `copyIO`: `copyBuffer(dest, src)` when `ConnTimeout > 0`,
the library call `io.Copy(dest, src)` otherwise; only `err` is kept. `script` is what
the connections answer to `copyBuffer`, `ioCopy` how `io.Copy` ends. -/
def copyOutcome (ConnTimeout : Int) (script : List Cycle) (ioCopy : Run (Option GoErr)) :
    Run (Option GoErr) :=
  if ConnTimeout > 0 then
    match copyBuffer script with
    | .returned res => .returned res.err
    | .panicked => .panicked
    | .blocked => .blocked
  else ioCopy

/-- The function `copyIO(src, dest, index, closeCb)` with `closeCb` the closure
`removeConnCount` of `handleRequest`, that is `changeConnCount(-1)`. The deferred
closes run last, `dest` first. -/
def copyIO (Count : List Int) (index : Nat) (ConnTimeout : Int) (script : List Cycle)
    (ioCopy : Run (Option GoErr)) : Run (List Int × List Effect) :=
  match copyOutcome ConnTimeout script ioCopy with
  | .panicked => .panicked
  | .blocked => .blocked
  | .returned err =>
    let logs : List Effect :=
      match err with
      | some e => [.logVerbose (errLogLevel e)]
      | none => []
    match changeConnCount Count index (-1) with
    | none => .panicked
    | some (Count1, _) =>
      .returned (Count1, logs ++ [.closeCb, .logVerbose 4, .destClose, .srcClose])

/-! ## `main`: start-up -/

/-- The loop `for index, rule := range ConnRules` of `main`, from position `index`
on. `started` lists the rules whose listener goroutine has been launched by the `go`
statement; the second component is the message of the panic that ends the loop. -/
def startListeners : List Rule → Nat → List Nat → List Nat × Option String
  | [], _, started => (started, none)
  | rule :: rest, index, started =>
    if rule.Listen == 0 then
      (started, some ("Rule number " ++ toString (index + 1) ++
        " does not have a valid port number"))
    else if rule.Forward == "" then
      (started, some ("Rule number " ++ toString (index + 1) ++
        " does not have a forward address"))
    else
      startListeners rest (index + 1) (started ++ [index])

/-- The process state after the start-up part of `main`. -/
structure MainState where
  ConnRules : List Rule
  Count : List Int
  ConnTimeout : Int
  started : List Nat
  panicMsg : Option String
  deriving DecidableEq, Repr

/-- Nanoseconds in `time.Second`. -/
def timeSecond : Int := 1000000000

/-- The function `main` from the parsed configuration to the end of the listener
loop: `MultiConn.Count = make([]int, len(ConnRules))`, the timeout, the listeners. -/
def main (conf : Config) : MainState :=
  let res := startListeners conf.Rules 0 []
  { ConnRules := conf.Rules
    Count := List.replicate conf.Rules.length 0
    ConnTimeout := if conf.Timeout ≤ 0 then 0 else wrapInt (conf.Timeout * timeSecond)
    started := res.1
    panicMsg := res.2 }

/-! ## Concurrent handlers -/

/-- Where one `handleRequest` goroutine and its two pumps stand. `relaying a b`: the
counter has been raised; `a` (`b`) tells whether the pump client to server (server to
client) is still running. -/
inductive Phase where
  | start
  | rejected
  | checked
  | dialFailed
  | dialed
  | relaying (a b : Bool)
  deriving DecidableEq, Repr

/-- One accepted connection: the arguments `index` and `r` of `handleRequest`. -/
structure Handler where
  index : Nat
  r : Rule
  phase : Phase
  deriving DecidableEq, Repr

/-- The shared counter and every handler accepted so far. -/
structure Sys where
  Count : List Int
  handlers : List Handler
  deriving DecidableEq, Repr

/-- The atomic steps. `accept index`: the listener of rule `index` accepts a
connection and runs `go handleRequest(conn, index, rule)`. `peek h`: handler `h` runs
`changeConnCount(0)` and the limit test. `dial h ok`: its `net.Dial` returns. `add h`:
it runs `changeConnCount(2)` and launches both pumps. `pumpExit h first`: one of its
pumps runs `closeCb()`. -/
inductive Action where
  | accept (index : Nat)
  | peek (h : Nat)
  | dial (h : Nat) (ok : Bool)
  | add (h : Nat)
  | pumpExit (h : Nat) (first : Bool)
  deriving DecidableEq, Repr

/-- One atomic step; `none` when the step is not enabled. -/
def step (rules : List Rule) (s : Sys) : Action → Option Sys
  | .accept index =>
    match rules[index]? with
    | some r => some ⟨s.Count, s.handlers ++ [⟨index, r, .start⟩]⟩
    | none => none
  | .peek h =>
    match s.handlers[h]? with
    | some ⟨index, r, .start⟩ =>
      match changeConnCount s.Count index 0 with
      | some (Count1, connCount) =>
        some ⟨Count1, s.handlers.set h
          ⟨index, r, if hasReachedLimit r connCount then .rejected else .checked⟩⟩
      | none => none
    | _ => none
  | .dial h ok =>
    match s.handlers[h]? with
    | some ⟨index, r, .checked⟩ =>
      some ⟨s.Count, s.handlers.set h ⟨index, r, if ok then .dialed else .dialFailed⟩⟩
    | _ => none
  | .add h =>
    match s.handlers[h]? with
    | some ⟨index, r, .dialed⟩ =>
      match changeConnCount s.Count index 2 with
      | some (Count1, _) => some ⟨Count1, s.handlers.set h ⟨index, r, .relaying true true⟩⟩
      | none => none
    | _ => none
  | .pumpExit h first =>
    match s.handlers[h]? with
    | some ⟨index, r, .relaying a b⟩ =>
      if (if first then a else b) then
        match changeConnCount s.Count index (-1) with
        | some (Count1, _) =>
          some ⟨Count1, s.handlers.set h
            ⟨index, r, if first then .relaying false b else .relaying a false⟩⟩
        | none => none
      else none
    | _ => none

/-- Runs a schedule of atomic steps; `none` when some step is not enabled. -/
def run (rules : List Rule) : Sys → List Action → Option Sys
  | s, [] => some s
  | s, a :: rest =>
    match step rules s a with
    | some s1 => run rules s1 rest
    | none => none

/-- The state `main` leaves behind: an all-zero counter, no connection accepted. -/
def initSys (rules : List Rule) : Sys :=
  ⟨(main ⟨0, rules⟩).Count, []⟩

/-- Number of pumps of a handler that are still to run `closeCb()`. -/
def Phase.pumps : Phase → Nat
  | .relaying a b => (if a then 1 else 0) + (if b then 1 else 0)
  | _ => 0

/-- Connections of rule `index` that are dialed and admitted with a pump running. -/
def established (s : Sys) (index : Nat) : Nat :=
  (s.handlers.filter (fun h => h.index == index && decide (0 < h.phase.pumps))).length

/-- The schedule in which handler `h` runs alone from its first statement to its
return: `limit` is the outcome of its limit test, `dial` the answer of `net.Dial`. -/
def soloSchedule (h : Nat) (limit : Bool) (dial : Option GoErr) : List Action :=
  if limit then [.peek h]
  else match dial with
    | some _ => [.peek h, .dial h false]
    | none => [.peek h, .dial h true, .add h]

/-- The two tests of the start-up loop: `rule.Listen == 0` or `rule.Forward == ""`. -/
def invalidRule (r : Rule) : Bool := r.Listen == 0 || r.Forward == ""

theorem set_getElem_same (l : List Int) (i : Nat) (h : i < l.length) :
    l.set i l[i] = l := by
  apply List.ext_getElem?
  intro j
  rw [List.getElem?_set]
  by_cases hij : i = j
  · subst hij
    simp [h]
  · simp [hij]

theorem wrapInt_of_range (x : Int) (h1 : minInt ≤ x) (h2 : x ≤ maxInt) : wrapInt x = x := by
  unfold wrapInt
  unfold minInt maxInt intBits at *
  norm_num at *
  omega

theorem changeConnCount_peek (Count : List Int) (index : Nat) (h : index < Count.length) :
    changeConnCount Count index 0 = some (Count, Count[index]) := by
  simp [changeConnCount, h, List.getD_eq_getElem?_getD]

theorem changeConnCount_wrap (Count : List Int) (index : Nat) (number : Int)
    (h : index < Count.length) (hn : number ≠ 0) :
    changeConnCount Count index number =
      some (Count.set index (wrapInt (Count[index] + number)),
        wrapInt (Count[index] + number)) := by
  simp [changeConnCount, h, hn, List.getD_eq_getElem?_getD]

theorem changeConnCount_eq (Count : List Int) (index : Nat) (number : Int)
    (h : index < Count.length) (hlo : minInt ≤ Count[index] + number)
    (hhi : Count[index] + number ≤ maxInt) :
    changeConnCount Count index number =
      some (Count.set index (Count[index] + number), Count[index] + number) := by
  by_cases hn : number = 0
  · subst hn
    rw [changeConnCount_peek Count index h]
    simp [set_getElem_same]
  · rw [changeConnCount_wrap Count index number h hn, wrapInt_of_range _ hlo hhi]

/-! ## Admission predicate -/

/-- C2, as stated, fails: for the cap `Simultaneous = 9223372036854775807` (the largest
`int`) the product `r.Simultaneous * 2` overflows Go's 64-bit `int` to `-2`, so
`hasReachedLimit(0)` is true although `0 >= 9223372036854775807 * 2` is false. -/
theorem hasReachedLimit_overflow :
    ¬ (hasReachedLimit ⟨"big", 9000, "127.0.0.1:9100", 9223372036854775807⟩ 0 = true ↔
        ((9223372036854775807 : Int) ≠ 0 ∧ (0 : Int) ≥ 9223372036854775807 * 2)) := by
  decide

/-- C2, amended: for every rule whose cap satisfies `0 ≤ Simultaneous` and
`Simultaneous * 2 ≤ maxInt` (the doubled cap fits Go's `int`) and every counter value
`c`, `hasReachedLimit(c)` is true exactly when `Simultaneous ≠ 0` and
`c ≥ Simultaneous * 2`; for `Simultaneous = 0` it is false for every `c`. -/
theorem hasReachedLimit_iff (r : Rule) (c : Int) (h0 : 0 ≤ r.Simultaneous)
    (h1 : r.Simultaneous * 2 ≤ maxInt) :
    (hasReachedLimit r c = true ↔ (r.Simultaneous ≠ 0 ∧ c ≥ r.Simultaneous * 2)) ∧
    (r.Simultaneous = 0 → hasReachedLimit r c = false) := by
  have hw : wrapInt (r.Simultaneous * 2) = r.Simultaneous * 2 := by
    apply wrapInt_of_range _ _ h1
    unfold minInt intBits
    norm_num
    omega
  constructor
  · simp [hasReachedLimit, hw]
  · intro hz
    simp [hasReachedLimit, hz]

theorem hasReachedLimit_iff_witness :
    (0 : Int) ≤ (Rule.mk "web" 9000 "127.0.0.1:9100" 1).Simultaneous ∧
    (Rule.mk "web" 9000 "127.0.0.1:9100" 1).Simultaneous * 2 ≤ maxInt ∧
    (hasReachedLimit ⟨"web", 9000, "127.0.0.1:9100", 1⟩ 2 = true ↔
      ((Rule.mk "web" 9000 "127.0.0.1:9100" 1).Simultaneous ≠ 0 ∧
        (2 : Int) ≥ (Rule.mk "web" 9000 "127.0.0.1:9100" 1).Simultaneous * 2)) ∧
    ((Rule.mk "web" 9000 "127.0.0.1:9100" 1).Simultaneous = 0 →
      hasReachedLimit ⟨"web", 9000, "127.0.0.1:9100", 1⟩ 2 = false) :=
  ⟨by decide, by decide,
    hasReachedLimit_iff ⟨"web", 9000, "127.0.0.1:9100", 1⟩ 2 (by decide) (by decide)⟩

/-! ## Counter adjust -/

/-- C3, as stated, fails: the update `MultiConn.Count[index] += number` is Go `int`
arithmetic. On the slot value `9223372036854775807` the call `changeConnCount(2)`
returns `-9223372036854775807`, not `Count[i] + 2`. -/
theorem changeConnCount_overflow :
    changeConnCount [9223372036854775807] 0 2 =
      some ([-9223372036854775807], -9223372036854775807) ∧
    (-9223372036854775807 : Int) ≠ ([9223372036854775807] : List Int)[0] + 2 := by
  decide

/-- C3, amended: for every counter array, every in-range index `i` and every `delta`
for which `Count[i] + delta` is a Go `int` (between `minInt` and `maxInt`),
`changeConnCount(delta)` returns `Count[i] + delta`, leaves slot `i` holding the
returned value and every other slot (and the length) unchanged; for `delta = 0` the
array is unchanged and the current value of slot `i` is returned. -/
theorem changeConnCount_adjust (Count : List Int) (i : Nat) (delta : Int)
    (h : i < Count.length) (hlo : minInt ≤ Count[i] + delta)
    (hhi : Count[i] + delta ≤ maxInt) :
    ∃ Count1 v, changeConnCount Count i delta = some (Count1, v) ∧
      v = Count[i] + delta ∧
      Count1[i]? = some v ∧
      Count1.length = Count.length ∧
      (∀ j, j ≠ i → Count1[j]? = Count[j]?) ∧
      (delta = 0 → Count1 = Count ∧ v = Count[i]) := by
  refine ⟨Count.set i (Count[i] + delta), Count[i] + delta,
    changeConnCount_eq Count i delta h hlo hhi, rfl, ?_, ?_, ?_, ?_⟩
  · simp [h]
  · simp
  · intro j hj
    simp [List.getElem?_set_ne (Ne.symm hj)]
  · intro hd
    subst hd
    simp [set_getElem_same]

theorem changeConnCount_adjust_witness :
    1 < ([4, 0, 6] : List Int).length ∧
    minInt ≤ ([4, 0, 6] : List Int)[1] + 2 ∧
    ([4, 0, 6] : List Int)[1] + 2 ≤ maxInt ∧
    ∃ Count1 v, changeConnCount [4, 0, 6] 1 2 = some (Count1, v) ∧
      v = [4, 0, 6][1] + 2 ∧
      Count1[1]? = some v ∧
      Count1.length = [4, 0, 6].length ∧
      (∀ j, j ≠ 1 → Count1[j]? = [4, 0, 6][j]?) ∧
      ((2 : Int) = 0 → Count1 = [4, 0, 6] ∧ v = [4, 0, 6][1]) :=
  ⟨by decide, by decide, by decide,
    changeConnCount_adjust [4, 0, 6] 1 2 (by decide) (by decide) (by decide)⟩

/-! ## `handleRequest` run on its own -/

/-- C7: when the limit test is true, `handleRequest` logs, closes the inbound
connection and returns: the counter array is unchanged, `net.Dial` is not called
(whatever it would have answered) and no pump is launched. -/
theorem handleRequest_rejected (Count : List Int) (index : Nat) (r : Rule)
    (dial : Option GoErr) (h : index < Count.length)
    (hlim : hasReachedLimit r Count[index] = true) :
    handleRequest Count index r dial = some (Count, [.logVerbose 2, .connClose]) := by
  simp [handleRequest, changeConnCount_peek Count index h, hlim]

theorem handleRequest_rejected_witness :
    0 < ([2, 0] : List Int).length ∧
    hasReachedLimit ⟨"web", 9000, "127.0.0.1:9100", 1⟩ ([2, 0] : List Int)[0] = true ∧
    handleRequest [2, 0] 0 ⟨"web", 9000, "127.0.0.1:9100", 1⟩ none =
      some ([2, 0], [.logVerbose 2, .connClose]) :=
  ⟨by decide, by decide,
    handleRequest_rejected [2, 0] 0 ⟨"web", 9000, "127.0.0.1:9100", 1⟩ none
      (by decide) (by decide)⟩

/-- C6: when the connection is admitted and `net.Dial` fails, `handleRequest` dials
once, logs, closes the inbound connection and returns: the counter array is exactly
as before and no pump is launched. -/
theorem handleRequest_dial_failure (Count : List Int) (index : Nat) (r : Rule)
    (e : GoErr) (h : index < Count.length)
    (hadm : hasReachedLimit r Count[index] = false) :
    handleRequest Count index r (some e) =
      some (Count, [.netDial r.Forward, .logVerbose 1, .connClose]) := by
  simp [handleRequest, changeConnCount_peek Count index h, hadm]

theorem handleRequest_dial_failure_witness :
    0 < ([2, 0] : List Int).length ∧
    hasReachedLimit ⟨"web", 9000, "127.0.0.1:9100", 2⟩ ([2, 0] : List Int)[0] = false ∧
    handleRequest [2, 0] 0 ⟨"web", 9000, "127.0.0.1:9100", 2⟩
        (some (.other "dial tcp 127.0.0.1:9100: connect: connection refused")) =
      some ([2, 0], [.netDial "127.0.0.1:9100", .logVerbose 1, .connClose]) :=
  ⟨by decide, by decide,
    handleRequest_dial_failure [2, 0] 0 ⟨"web", 9000, "127.0.0.1:9100", 2⟩
      (.other "dial tcp 127.0.0.1:9100: connect: connection refused")
      (by decide) (by decide)⟩

theorem handleRequest_admitted_wrap (Count : List Int) (index : Nat) (r : Rule)
    (h : index < Count.length)
    (hadm : hasReachedLimit r Count[index] = false) :
    handleRequest Count index r none =
      some (Count.set index (wrapInt (Count[index] + 2)),
        [.netDial r.Forward, .logVerbose 4, .goPump true, .goPump false]) := by
  simp [handleRequest, changeConnCount_peek Count index h, hadm,
    changeConnCount_wrap Count index 2 h (by decide)]

theorem handleRequest_admitted (Count : List Int) (index : Nat) (r : Rule)
    (h : index < Count.length)
    (hadm : hasReachedLimit r Count[index] = false)
    (hlo : minInt ≤ Count[index] + 2) (hhi : Count[index] + 2 ≤ maxInt) :
    handleRequest Count index r none =
      some (Count.set index (Count[index] + 2),
        [.netDial r.Forward, .logVerbose 4, .goPump true, .goPump false]) := by
  rw [handleRequest_admitted_wrap Count index r h hadm, wrapInt_of_range _ hlo hhi]

/-! ## The relay loop -/

theorem delivered_append (a b : List IOOp) :
    delivered (a ++ b) = delivered a ++ delivered b := by
  induction a with
  | nil => rfl
  | cons o a ih =>
    cases o <;> simp [delivered, ih]

theorem copyLoop_cons_cont (c : Cycle) (rest : List Cycle) (w w1 : Int)
    (ops ops1 : List IOOp) (h : copyCycle c w = .cont w1 ops1) :
    copyLoop (c :: rest) w ops = copyLoop rest w1 (ops ++ ops1) := by
  simp [copyLoop, h]

theorem copyCycle_fullCycle_none (c : List Byte) (w : Int) (hc : c.length ≤ bufSize) :
    ∃ ops1, copyCycle (fullCycle c none) w = .cont (w + c.length) ops1 ∧
      delivered ops1 = c := by
  by_cases h0 : c.length = 0
  · have : c = [] := List.length_eq_zero.mp h0
    subst this
    exact ⟨[.srcSetDeadline, .srcRead 0], by simp [copyCycle, fullCycle, afterRead],
      by simp [delivered]⟩
  · have hpos : 0 < c.length := Nat.pos_of_ne_zero h0
    have hnot : ¬ c.length > bufSize := by omega
    refine ⟨[.srcSetDeadline, .srcRead c.length, .dstSetDeadline,
      .dstWrite c c.length], ?_, ?_⟩
    · simp [copyCycle, fullCycle, afterRead, hpos, hnot]
    · simp [delivered]

theorem copyCycle_fullCycle_EOF (c : List Byte) (w : Int) (hc : c.length ≤ bufSize) :
    ∃ ops1, copyCycle (fullCycle c (some .EOF)) w = .brk (w + c.length) none ops1 ∧
      delivered ops1 = c := by
  by_cases h0 : c.length = 0
  · have : c = [] := List.length_eq_zero.mp h0
    subst this
    exact ⟨[.srcSetDeadline, .srcRead 0], by simp [copyCycle, fullCycle, afterRead],
      by simp [delivered]⟩
  · have hpos : 0 < c.length := Nat.pos_of_ne_zero h0
    have hnot : ¬ c.length > bufSize := by omega
    refine ⟨[.srcSetDeadline, .srcRead c.length, .dstSetDeadline,
      .dstWrite c c.length], ?_, ?_⟩
    · simp [copyCycle, fullCycle, afterRead, hpos, hnot]
    · simp [delivered]

theorem copyLoop_full (chunks : List (List Byte)) (last : List Byte)
    (hlast : last.length ≤ bufSize) :
    ∀ (w : Int) (ops : List IOOp), (∀ c ∈ chunks, c.length ≤ bufSize) →
      ∃ ops1, copyLoop (chunks.map (fun c => fullCycle c none) ++
          [fullCycle last (some .EOF)]) w ops =
        .returned ⟨w + (chunks.flatten ++ last).length, none, ops ++ ops1⟩ ∧
        delivered ops1 = chunks.flatten ++ last := by
  induction chunks with
  | nil =>
    intro w ops _
    obtain ⟨ops1, h1, h2⟩ := copyCycle_fullCycle_EOF last w hlast
    exact ⟨ops1, by simp [copyLoop, h1], by simpa using h2⟩
  | cons c cs ih =>
    intro w ops hall
    obtain ⟨opsc, h1, h2⟩ := copyCycle_fullCycle_none c w (hall c (List.mem_cons_self _ _))
    obtain ⟨ops1, h3, h4⟩ := ih (w + c.length) (ops ++ opsc)
      (fun x hx => hall x (List.mem_cons_of_mem _ hx))
    refine ⟨opsc ++ ops1, ?_, ?_⟩
    · have hl : (((c :: cs).flatten ++ last).length : Int) =
          (c.length : Int) + ((cs.flatten ++ last).length : Int) := by
        simp [add_assoc]
      rw [hl, List.map_cons, List.cons_append]
      rw [copyLoop_cons_cont _ _ _ _ _ _ h1, h3, add_assoc, List.append_assoc]
    · simp [delivered_append, h2, h4]

/-- A payload that spans several buffer fills: two full buffers and a short tail. -/
theorem copyBuffer_buffer_fills :
    ∃ ops, copyBuffer [fullCycle (List.replicate 32768 1) none,
        fullCycle (List.replicate 32768 2) none,
        fullCycle (List.replicate 10 3) (some .EOF)] =
      .returned ⟨65546, none, ops⟩ ∧
      delivered ops = List.replicate 32768 1 ++ (List.replicate 32768 2 ++
        List.replicate 10 3) := by
  have hb : ∀ (n b : Nat), n ≤ 32768 → (List.replicate n b).length ≤ bufSize := by
    intro n b hn
    rw [List.length_replicate]
    exact hn
  obtain ⟨ops1, h1, h2⟩ := copyLoop_full
    [List.replicate 32768 1, List.replicate 32768 2] (List.replicate 10 3)
    (hb 10 3 (by decide)) 0 []
    (by
      intro c hc
      rcases List.mem_cons.mp hc with rfl | hc
      · exact hb _ _ (le_refl _)
      · rcases List.mem_cons.mp hc with rfl | hc
        · exact hb _ _ (le_refl _)
        · cases hc)
  refine ⟨ops1, ?_, ?_⟩
  · unfold copyBuffer
    simp only [List.map_cons, List.map_nil, List.cons_append, List.nil_append] at h1
    rw [h1]
    simp only [List.flatten, List.length_append, List.length_replicate, List.append_nil,
      List.nil_append]
    norm_num
  · rw [h2]
    simp only [List.flatten, List.append_nil, List.append_assoc]

theorem startListeners_started (rules : List Rule) :
    ∀ (index : Nat) (started : List Nat),
      (startListeners rules index started).1 =
        started ++ List.range' index (rules.findIdx invalidRule) := by
  induction rules with
  | nil => intro index started; simp [startListeners]
  | cons r rs ih =>
    intro index started
    by_cases h1 : r.Listen = 0
    · simp [startListeners, h1, List.findIdx_cons, invalidRule]
    · by_cases h2 : r.Forward = ""
      · simp [startListeners, h1, h2, List.findIdx_cons, invalidRule]
      · have hv : invalidRule r = false := by simp [invalidRule, h1, h2]
        simp [startListeners, h1, h2, List.findIdx_cons, hv, ih, List.range'_succ]

theorem startListeners_panic (rules : List Rule) :
    ∀ (index : Nat) (started : List Nat),
      (startListeners rules index started).2.isSome = rules.any invalidRule := by
  induction rules with
  | nil => intro index started; simp [startListeners]
  | cons r rs ih =>
    intro index started
    by_cases h1 : r.Listen = 0
    · simp [startListeners, h1, invalidRule]
    · by_cases h2 : r.Forward = ""
      · simp [startListeners, h1, h2, invalidRule]
      · simp [startListeners, h1, h2, invalidRule, ih]

/-- C9, as stated, fails: with a valid rule followed by a rule without port, `main`
panics at the second rule after the `go` statement of the first rule has run, so the
listener of rule 0 has been started. -/
theorem main_validation_counterexample :
    (∃ r ∈ (Config.mk 0 [⟨"ok", 9000, "127.0.0.1:9100", 0⟩, ⟨"bad", 0, "127.0.0.1:9200", 0⟩]).Rules,
      r.Listen = 0 ∨ r.Forward = "") ∧
    (main ⟨0, [⟨"ok", 9000, "127.0.0.1:9100", 0⟩, ⟨"bad", 0, "127.0.0.1:9200", 0⟩]⟩).panicMsg =
      some "Rule number 2 does not have a valid port number" ∧
    (main ⟨0, [⟨"ok", 9000, "127.0.0.1:9100", 0⟩, ⟨"bad", 0, "127.0.0.1:9200", 0⟩]⟩).started =
      [0] := by
  refine ⟨⟨⟨"bad", 0, "127.0.0.1:9200", 0⟩, by simp, Or.inl rfl⟩, by decide, by decide⟩

/-- C9, amended: for every rule list in which some rule has `Listen = 0` or
`Forward = ""`, the start-up loop of `main` panics, and the listeners started before
the panic are exactly those of the rules that precede the first such rule: none for
that rule or for any later one. -/
theorem main_validation (conf : Config)
    (h : ∃ r ∈ conf.Rules, r.Listen = 0 ∨ r.Forward = "") :
    (main conf).panicMsg.isSome = true ∧
    conf.Rules.findIdx invalidRule < conf.Rules.length ∧
    (main conf).started = List.range (conf.Rules.findIdx invalidRule) := by
  obtain ⟨r, hr, hbad⟩ := h
  have hany : conf.Rules.any invalidRule = true := by
    rw [List.any_eq_true]
    refine ⟨r, hr, ?_⟩
    rcases hbad with hb | hb <;> simp [invalidRule, hb]
  refine ⟨?_, ?_, ?_⟩
  · show (startListeners conf.Rules 0 []).2.isSome = true
    rw [startListeners_panic, hany]
  · apply List.findIdx_lt_length_of_exists
    rw [List.any_eq_true] at hany
    exact hany
  · show (startListeners conf.Rules 0 []).1 = _
    rw [startListeners_started, List.range_eq_range']
    simp

theorem main_validation_witness :
    (∃ r ∈ (Config.mk 5 [⟨"a", 9000, "127.0.0.1:9100", 0⟩, ⟨"b", 9001, "", 2⟩,
        ⟨"c", 9002, "127.0.0.1:9102", 0⟩]).Rules, r.Listen = 0 ∨ r.Forward = "") ∧
    (main ⟨5, [⟨"a", 9000, "127.0.0.1:9100", 0⟩, ⟨"b", 9001, "", 2⟩,
        ⟨"c", 9002, "127.0.0.1:9102", 0⟩]⟩).panicMsg.isSome = true ∧
    (Config.mk 5 [⟨"a", 9000, "127.0.0.1:9100", 0⟩, ⟨"b", 9001, "", 2⟩,
        ⟨"c", 9002, "127.0.0.1:9102", 0⟩]).Rules.findIdx invalidRule <
      (Config.mk 5 [⟨"a", 9000, "127.0.0.1:9100", 0⟩, ⟨"b", 9001, "", 2⟩,
        ⟨"c", 9002, "127.0.0.1:9102", 0⟩]).Rules.length ∧
    (main ⟨5, [⟨"a", 9000, "127.0.0.1:9100", 0⟩, ⟨"b", 9001, "", 2⟩,
        ⟨"c", 9002, "127.0.0.1:9102", 0⟩]⟩).started =
      List.range ((Config.mk 5 [⟨"a", 9000, "127.0.0.1:9100", 0⟩, ⟨"b", 9001, "", 2⟩,
        ⟨"c", 9002, "127.0.0.1:9102", 0⟩]).Rules.findIdx invalidRule) :=
  ⟨⟨⟨"b", 9001, "", 2⟩, by simp, Or.inr rfl⟩,
    main_validation ⟨5, [⟨"a", 9000, "127.0.0.1:9100", 0⟩, ⟨"b", 9001, "", 2⟩,
        ⟨"c", 9002, "127.0.0.1:9102", 0⟩]⟩ ⟨⟨"b", 9001, "", 2⟩, by simp, Or.inr rfl⟩⟩

/-! ## The pump -/

theorem copyIO_returned (Count : List Int) (index : Nat) (ConnTimeout : Int)
    (script : List Cycle) (ioCopy : Run (Option GoErr)) (err : Option GoErr)
    (h : index < Count.length)
    (hlo : minInt < Count[index]) (hhi : Count[index] ≤ maxInt + 1)
    (hret : copyOutcome ConnTimeout script ioCopy = .returned err) :
    ∃ eff, copyIO Count index ConnTimeout script ioCopy =
      .returned (Count.set index (Count[index] - 1), eff) ∧
      eff.count .closeCb = 1 := by
  have hc : changeConnCount Count index (-1) =
      some (Count.set index (Count[index] - 1), Count[index] - 1) := by
    have := changeConnCount_eq Count index (-1) h (by omega) (by omega)
    simpa [sub_eq_add_neg] using this
  unfold copyIO
  rw [hret]
  simp only [hc]
  cases err with
  | none => exact ⟨_, rfl, by decide⟩
  | some e => exact ⟨_, rfl, by simp⟩

/-- C4, as stated, fails: the increment is Go `int` arithmetic. For the slot value
`9223372036854775807` an admitted connection whose dial succeeds leaves the slot at
`-9223372036854775807`: it is not raised by 2. -/
theorem counter_conservation_overflow :
    hasReachedLimit ⟨"web", 9000, "127.0.0.1:9100", 0⟩
      ([9223372036854775807] : List Int)[0] = false ∧
    handleRequest [9223372036854775807] 0 ⟨"web", 9000, "127.0.0.1:9100", 0⟩ none =
      some ([-9223372036854775807],
        [.netDial "127.0.0.1:9100", .logVerbose 4, .goPump true, .goPump false]) ∧
    (-9223372036854775807 : Int) ≠ ([9223372036854775807] : List Int)[0] + 2 := by
  decide

/-- C4, amended: for an admitted connection whose dial succeeds, on a slot value that
leaves room for the increment (`minInt ≤ Count[index]` and `Count[index] + 2 ≤ maxInt`),
`handleRequest` raises the slot of the rule by exactly 2 and launches the two pumps; a
pump whose copy returns, by whatever exit path (`copyBuffer` leaving its loop for any
reason, or `io.Copy` returning), runs `closeCb()` exactly once and lowers the slot by
exactly 1, from any counter `C` whose slot is a Go `int` above `minInt`; after both pumps have
exited the counter array is what it was before the connection was admitted. -/
theorem counter_conservation (Count : List Int) (index : Nat) (r : Rule)
    (ConnTimeout : Int) (s1 s2 : List Cycle) (io1 io2 : Run (Option GoErr))
    (e1 e2 : Option GoErr)
    (h : index < Count.length)
    (hlo : minInt ≤ Count[index]) (hhi : Count[index] + 2 ≤ maxInt)
    (hadm : hasReachedLimit r Count[index] = false)
    (h1 : copyOutcome ConnTimeout s1 io1 = .returned e1)
    (h2 : copyOutcome ConnTimeout s2 io2 = .returned e2) :
    (∃ Count1, handleRequest Count index r none =
        some (Count1, [.netDial r.Forward, .logVerbose 4, .goPump true, .goPump false]) ∧
      Count1 = Count.set index (Count[index] + 2) ∧
      ∃ Count2 eff1, copyIO Count1 index ConnTimeout s1 io1 = .returned (Count2, eff1) ∧
        eff1.count .closeCb = 1 ∧
        Count2 = Count.set index (Count[index] + 1) ∧
        ∃ Count3 eff2, copyIO Count2 index ConnTimeout s2 io2 = .returned (Count3, eff2) ∧
          eff2.count .closeCb = 1 ∧
          Count3 = Count) ∧
    (∀ C : List Int, ∀ hC : index < C.length, minInt < C[index] → C[index] ≤ maxInt →
      ∃ eff, copyIO C index ConnTimeout s1 io1 =
        .returned (C.set index (C[index] - 1), eff) ∧ eff.count .closeCb = 1) := by
  constructor
  · refine ⟨_, handleRequest_admitted Count index r h hadm (by omega) hhi, rfl, ?_⟩
    have hl1 : index < (Count.set index (Count[index] + 2)).length := by simpa using h
    have hg1 : (Count.set index (Count[index] + 2))[index] = Count[index] + 2 := by simp
    obtain ⟨eff1, hp1, hc1⟩ := copyIO_returned _ index ConnTimeout s1 io1 e1 hl1
      (by rw [hg1]; omega) (by rw [hg1]; omega) h1
    have hv1 : (Count.set index (Count[index] + 2)).set index
        ((Count.set index (Count[index] + 2))[index] - 1) =
        Count.set index (Count[index] + 1) := by
      rw [List.set_set, hg1]
      congr 1
      omega
    rw [hv1] at hp1
    refine ⟨_, eff1, hp1, hc1, rfl, ?_⟩
    have hl2 : index < (Count.set index (Count[index] + 1)).length := by simpa using h
    have hg2 : (Count.set index (Count[index] + 1))[index] = Count[index] + 1 := by simp
    obtain ⟨eff2, hp2, hc2⟩ := copyIO_returned _ index ConnTimeout s2 io2 e2 hl2
      (by rw [hg2]; omega) (by rw [hg2]; omega) h2
    have hv2 : (Count.set index (Count[index] + 1)).set index
        ((Count.set index (Count[index] + 1))[index] - 1) = Count := by
      rw [List.set_set, hg2]
      have : Count[index] + 1 - 1 = Count[index] := by omega
      rw [this, set_getElem_same]
    rw [hv2] at hp2
    exact ⟨_, eff2, hp2, hc2, rfl⟩
  · intro C hC hClo hChi
    exact copyIO_returned C index ConnTimeout s1 io1 e1 hC hClo (by omega) h1

theorem counter_conservation_witness :
    0 < ([0] : List Int).length ∧
    minInt ≤ ([0] : List Int)[0] ∧
    ([0] : List Int)[0] + 2 ≤ maxInt ∧
    hasReachedLimit ⟨"web", 9000, "127.0.0.1:9100", 1⟩ ([0] : List Int)[0] = false ∧
    copyOutcome 5 [⟨none, [], some (.other "read tcp: i/o timeout"), none, 0, none⟩]
        .blocked = .returned (some (.other "read tcp: i/o timeout")) ∧
    copyOutcome 5 [⟨none, [7, 8], none, none, 1, none⟩] .blocked =
      .returned (some .ErrShortWrite) ∧
    ((∃ Count1, handleRequest [0] 0 ⟨"web", 9000, "127.0.0.1:9100", 1⟩ none =
        some (Count1, [.netDial (Rule.mk "web" 9000 "127.0.0.1:9100" 1).Forward,
          .logVerbose 4, .goPump true, .goPump false]) ∧
      Count1 = ([0] : List Int).set 0 (([0] : List Int)[0] + 2) ∧
      ∃ Count2 eff1, copyIO Count1 0 5
          [⟨none, [], some (.other "read tcp: i/o timeout"), none, 0, none⟩] .blocked =
          .returned (Count2, eff1) ∧
        eff1.count .closeCb = 1 ∧
        Count2 = ([0] : List Int).set 0 (([0] : List Int)[0] + 1) ∧
        ∃ Count3 eff2, copyIO Count2 0 5 [⟨none, [7, 8], none, none, 1, none⟩] .blocked =
            .returned (Count3, eff2) ∧
          eff2.count .closeCb = 1 ∧
          Count3 = [0]) ∧
    (∀ C : List Int, ∀ hC : 0 < C.length, minInt < C[0] → C[0] ≤ maxInt →
      ∃ eff, copyIO C 0 5
          [⟨none, [], some (.other "read tcp: i/o timeout"), none, 0, none⟩] .blocked =
        .returned (C.set 0 (C[0] - 1), eff) ∧ eff.count .closeCb = 1)) :=
  ⟨by decide, by decide, by decide, by decide, by decide, by decide,
    counter_conservation [0] 0 ⟨"web", 9000, "127.0.0.1:9100", 1⟩ 5
      [⟨none, [], some (.other "read tcp: i/o timeout"), none, 0, none⟩]
      [⟨none, [7, 8], none, none, 1, none⟩] .blocked .blocked
      (some (.other "read tcp: i/o timeout")) (some .ErrShortWrite)
      (by decide) (by decide) (by decide) (by decide) (by decide) (by decide)⟩

/-- Each exit path of the pump ends in one `closeCb()`. -/
theorem copyIO_exit_paths :
    -- clean end-of-stream
    copyIO [2] 0 5 [fullCycle [7] none, fullCycle [] (some .EOF)] .blocked =
      .returned ([1], [.closeCb, .logVerbose 4, .destClose, .srcClose]) ∧
    -- read error
    copyIO [2] 0 5 [⟨none, [], some (.other "read: connection reset by peer"), none, 0, none⟩]
        .blocked =
      .returned ([1], [.logVerbose 4, .closeCb, .logVerbose 4, .destClose, .srcClose]) ∧
    -- write error
    copyIO [2] 0 5 [⟨none, [7, 8], none, none, 0, some (.other "write: broken pipe")⟩] .blocked =
      .returned ([1], [.logVerbose 4, .closeCb, .logVerbose 4, .destClose, .srcClose]) ∧
    -- short write
    copyIO [2] 0 5 [⟨none, [7, 8], none, none, 1, none⟩] .blocked =
      .returned ([1], [.logVerbose 4, .closeCb, .logVerbose 4, .destClose, .srcClose]) ∧
    -- deadline-set failure on a connection closed by the paired pump
    copyIO [2] 0 5 [⟨some (.other "use of closed network connection"), [], none, none, 0, none⟩]
        .blocked =
      .returned ([1], [.logVerbose 4, .closeCb, .logVerbose 4, .destClose, .srcClose]) ∧
    -- deadline-set failure, other
    copyIO [2] 0 5 [⟨none, [7], none, some (.other "invalid argument"), 0, none⟩] .blocked =
      .returned ([1], [.logVerbose 1, .closeCb, .logVerbose 4, .destClose, .srcClose]) ∧
    -- timeout
    copyIO [2] 0 5 [⟨none, [], some (.other "read tcp: i/o timeout"), none, 0, none⟩] .blocked =
      .returned ([1], [.logVerbose 3, .closeCb, .logVerbose 4, .destClose, .srcClose]) ∧
    -- no timeout configured: whatever `io.Copy` returns
    copyIO [2] 0 0 [] (.returned (some (.other "read: connection reset by peer"))) =
      .returned ([1], [.logVerbose 4, .closeCb, .logVerbose 4, .destClose, .srcClose]) := by
  refine ⟨?_, ?_, ?_, ?_, ?_, ?_, ?_, ?_⟩ <;> decide

/-! ## Concurrent handlers -/

/-- The atomic steps of a handler, run without interruption, change the counter as
the function `handleRequest` does. -/
theorem run_soloSchedule (rules : List Rule) (s : Sys) (h index : Nat) (r : Rule)
    (dial : Option GoErr) (hh : s.handlers[h]? = some ⟨index, r, .start⟩)
    (hidx : index < s.Count.length) :
    ∃ s1 eff, run rules s (soloSchedule h (hasReachedLimit r s.Count[index]) dial) = some s1 ∧
      handleRequest s.Count index r dial = some (s1.Count, eff) := by
  have hlt : h < s.handlers.length := (List.getElem?_eq_some.mp hh).1
  by_cases hlim : hasReachedLimit r s.Count[index] = true
  · refine ⟨⟨s.Count, s.handlers.set h ⟨index, r, .rejected⟩⟩,
      [.logVerbose 2, .connClose], ?_, ?_⟩
    · simp [soloSchedule, hlim, run, step, hh, changeConnCount_peek s.Count index hidx]
    · simp [handleRequest, changeConnCount_peek s.Count index hidx, hlim]
  · have hadm : hasReachedLimit r s.Count[index] = false := by simpa using hlim
    cases dial with
    | some e =>
      refine ⟨⟨s.Count, (s.handlers.set h ⟨index, r, .checked⟩).set h
        ⟨index, r, .dialFailed⟩⟩, [.netDial r.Forward, .logVerbose 1, .connClose], ?_, ?_⟩
      · simp [soloSchedule, hadm, run, step, hh, changeConnCount_peek s.Count index hidx,
          hlt]
      · simp [handleRequest, changeConnCount_peek s.Count index hidx, hadm]
    | none =>
      refine ⟨⟨s.Count.set index (wrapInt (s.Count[index] + 2)),
        ((s.handlers.set h ⟨index, r, .checked⟩).set h ⟨index, r, .dialed⟩).set h
          ⟨index, r, .relaying true true⟩⟩, _, ?_,
        handleRequest_admitted_wrap s.Count index r hidx hadm⟩
      simp [soloSchedule, hadm, run, step, hh, changeConnCount_peek s.Count index hidx, hlt,
        changeConnCount_wrap s.Count index 2 hidx (by decide)]

/-- C1 fails on the code: the limit test (`peek`) and the increment (`add`) are two
separate critical sections with `net.Dial` in between. For a rule with
`Simultaneous = 1`, two handlers that both peek before either adds are both admitted
and both dial: the slot reaches 4 > 2 * 1 and two connections are established. -/
theorem cap_race :
    run [⟨"web", 9000, "127.0.0.1:9100", 1⟩] (initSys [⟨"web", 9000, "127.0.0.1:9100", 1⟩])
        [.accept 0, .accept 0, .peek 0, .peek 1, .dial 0 true, .dial 1 true, .add 0, .add 1] =
      some ⟨[4], [⟨0, ⟨"web", 9000, "127.0.0.1:9100", 1⟩, .relaying true true⟩,
        ⟨0, ⟨"web", 9000, "127.0.0.1:9100", 1⟩, .relaying true true⟩]⟩ ∧
    established ⟨[4], [⟨0, ⟨"web", 9000, "127.0.0.1:9100", 1⟩, .relaying true true⟩,
        ⟨0, ⟨"web", 9000, "127.0.0.1:9100", 1⟩, .relaying true true⟩]⟩ 0 = 2 ∧
    ¬ ((4 : Int) ≤ 2 * 1) := by
  decide

end GoPortForward
